import Mathlib

/-!
Verification development for the KoinxAssginment offline scan-sync repository.

The repository is a React-Native app whose core is a CRDT-based replication
and admission subsystem (src/services/sync/state.ts, most complete variant;
scanner.ts = part_003; storage.ts = part_005).  This file gives a shallow
embedding of that core in Lean:

  * pure functions of the source become Lean functions;
  * the JS object `localState` (string-keyed, insertion-ordered) becomes an
    association list with in-place update and append-at-end insert;
  * JS `Array.prototype.sort` with a comparator (stable, per ES2019) is
    modelled by `List.insertionSort`, which is also stable for the same
    total preorder, hence produces the identical output;
  * `Date.now()` and the uuid generator are injected as parameters;
  * JS truthiness tests on optional strings (`if (message.messageId)`)
    are modelled by `presentStr`, which maps the empty string to `none`.
-/

/-- A scan event, the sole CRDT atom (types.ts `ScanEvent`). -/
structure ScanEvent where
  scanId : String
  qrCode : String
  timestamp : Int
  deviceId : String
  date : String
deriving DecidableEq, Repr

/-- Pass type: `"infinite" | "one-use"` in the source. -/
inductive PassType where
  | infinite
  | oneUse
deriving DecidableEq, Repr

/-- Per-code replica entry (types.ts `PassState`). -/
structure PassState where
  type : PassType
  scans : List ScanEvent
deriving DecidableEq, Repr

/-- Source type `LocalState = Record<string, PassState>`: a JS object, i.e. a
string-keyed map in insertion order.  Modelled as an association list. -/
abbrev LocalState := List (String × PassState)

/-- JS object / Map lookup (`localState[qrCode]`, `map.get(k)`). -/
def lookupAssoc {α : Type} : List (String × α) → String → Option α
  | [], _ => none
  | (k, v) :: rest, key => if k = key then some v else lookupAssoc rest key

/-- JS object / Map assignment (`localState[qrCode] = p`, `map.set(k, v)`):
replaces the value in place if the key exists, appends otherwise. -/
def setAssoc {α : Type} : List (String × α) → String → α → List (String × α)
  | [], key, v => [(key, v)]
  | (k, w) :: rest, key, v =>
      if k = key then (key, v) :: rest else (k, w) :: setAssoc rest key v

/-- JS truthiness of an optional string field: `undefined` and `""` are
falsy, every other string is truthy. -/
def presentStr : Option String → Option String
  | some "" => none
  | some s => some s
  | none => none

/-- JS `s.includes('I')` for a single-character needle: the string contains
the character somewhere.  (Modelled on `String.data` so that proofs can
evaluate it; identical to `String.contains` for these ASCII strings.) -/
def includesChar (s : String) (c : Char) : Bool := s.data.contains c

/-- JS string comparison (the ordering used by the default `Array.sort`
comparator and, for the ASCII device ids and scan ids of this app, by
`localeCompare`): lexicographic on the code units.  Modelled as the
lexicographic order on the character lists. -/
def strLe (a b : String) : Prop := a.data ≤ b.data

instance : DecidableRel strLe := fun _ _ => inferInstanceAs (Decidable (_ ≤ _))

instance : IsTrans String strLe :=
  ⟨fun _ _ _ h₁ h₂ => le_trans h₁ h₂⟩

instance : IsAntisymm String strLe :=
  ⟨fun a b h₁ h₂ => by
    cases a; cases b
    have := le_antisymm h₁ h₂
    simp_all [strLe]⟩

instance : IsTotal String strLe :=
  ⟨fun a b => le_total a.data b.data⟩

/-- The type derivation repeated verbatim at four places in the source
(`initializePassTypes`, `addScanEvent`, `mergeDeltaScans` in state.ts and
`loadState` in storage.ts):
`qrCode.includes('I') ? 'infinite' : 'one-use'`. -/
def deriveType (qrCode : String) : PassType :=
  if includesChar qrCode 'I' then PassType.infinite else PassType.oneUse

/-- The hardcoded codes under the `// Infinite passes` comment of
`QR_CODES` in state.ts. -/
def infinitePassCodes : List String :=
  ["SAT25IBLXRRU", "SAT25IPGOP23", "SAT25I32LFFI", "SAT25IB2JHC0",
   "SAT25IIPXM4M", "SAT25I5N8EKB", "SAT25ITPC3AZ", "SAT25IW6YXON",
   "SAT25ITUBCAP", "SAT25I8JOGTS"]

/-- The hardcoded codes under the `// One-use passes` comment of
`QR_CODES` in state.ts. -/
def oneUsePassCodes : List String :=
  ["SAT25SD724M2", "SAT25S9NHZT5", "SAT25SLTAAGR", "SAT25SCA78P3",
   "SAT25SI3IVAX", "SAT25SWRG0M5", "SAT25S36GKMG", "SAT25SJ5CNQK",
   "SAT25S5SCQG0", "SAT25SEK2YC1"]

/-- The hardcoded `QR_CODES` list (state.ts). -/
def QR_CODES : List String := infinitePassCodes ++ oneUsePassCodes

/-- Model of `initializePassTypes` (state.ts): writes the derived type for every
hardcoded code into the `pass_types` table. -/
def setupPassTypes : List (String × PassType) :=
  QR_CODES.map (fun qrCode =>
    (qrCode, if includesChar qrCode 'I' then PassType.infinite else PassType.oneUse))

/-- Deny reasons of `validateScan` (scanner.ts).  The source returns the
literal strings "Unknown QR code", "One-use pass already used today" and
"Already scanned within the last 30 seconds". -/
inductive DenyReason where
  | unknownQRCode
  | oneUseAlreadyUsedToday
  | recentDuplicateScan
deriving DecidableEq, Repr

/-- Source type `ScanValidationResult` (types.ts). -/
structure ScanValidationResult where
  allowed : Bool
  reason : Option DenyReason := none
  todayScansCount : Option Nat := none
deriving DecidableEq, Repr

/-- The cooldown constant of the normative scanner variant (part_003):
`const fiveMinutesAgo = Date.now() - 30 * 1000` — 30 seconds.
(The other scanner copy, part_004, uses `5 * 60 * 1000` instead.) -/
def COOLDOWN_MS : Int := 30 * 1000

/-- Model of `validateScan(qrCode)` (scanner.ts, part_003), as a pure function of
its inputs: the config entry type for the code (`jsonConfig[qrCode]`,
`none` when absent), the list `todayScans` returned by
`Storage.getScansForQROnDate(qrCode, today)`, and the clock `Date.now()`. -/
def validateScan (configEntry : Option PassType) (todayScans : List ScanEvent)
    (nowMs : Int) : ScanValidationResult :=
  match configEntry with
  | none => { allowed := false, reason := some DenyReason.unknownQRCode }
  | some ty =>
      if ty = PassType.oneUse ∧ todayScans.length > 0 then
        { allowed := false
          reason := some DenyReason.oneUseAlreadyUsedToday
          todayScansCount := some todayScans.length }
      else
        -- const fiveMinutesAgo = Date.now() - 30 * 1000;
        -- const recentScans = todayScans.filter(s => s.timestamp > fiveMinutesAgo);
        let cutoff := nowMs - COOLDOWN_MS
        let recentScans := todayScans.filter (fun s => s.timestamp > cutoff)
        if recentScans.length > 0 then
          { allowed := false
            reason := some DenyReason.recentDuplicateScan
            todayScansCount := some todayScans.length }
        else
          { allowed := true, todayScansCount := some todayScans.length }

/-- Model of `Storage.getScansForQROnDate(qrCode, date)` (storage.ts): the SQL query
`SELECT ... FROM scans WHERE qr_code = ? AND date = ? ORDER BY timestamp ASC`
over the stored scan list. -/
def getScansForQROnDate (db : List ScanEvent) (qrCode date : String) :
    List ScanEvent :=
  List.insertionSort (fun a b => a.timestamp ≤ b.timestamp)
    (db.filter (fun s => s.qrCode = qrCode ∧ s.date = date))

/-- Model of `Storage.saveScanEvent` (storage.ts): `INSERT OR REPLACE` keyed on
`scan_id` — upsert. -/
def saveScanEvent (db : List ScanEvent) (e : ScanEvent) : List ScanEvent :=
  if db.any (fun x => x.scanId = e.scanId) then
    db.map (fun x => if x.scanId = e.scanId then e else x)
  else
    db ++ [e]

/-- Model of `Storage.saveScanEvents` (storage.ts): batched upsert. -/
def saveScanEvents (db : List ScanEvent) (es : List ScanEvent) : List ScanEvent :=
  es.foldl saveScanEvent db

/-- Model of `handleScannedQRCode` (scanner.ts) viewed through the durable store:
validate against the stored scans for `(code, day)`; on allow, append the
event created by `addScanEvent` (its scanId comes from `uuidv4()`, its
timestamp from `Date.now()`, both injected here); on deny, change nothing. -/
def submitScan (config : String → Option PassType) (db : List ScanEvent)
    (code day : String) (nowMs : Int) (newScanId devId : String) :
    ScanValidationResult × List ScanEvent :=
  let v := validateScan (config code) (getScansForQROnDate db code day) nowMs
  if v.allowed then
    (v, saveScanEvent db { scanId := newScanId, qrCode := code,
                           timestamp := nowMs, deviceId := devId, date := day })
  else
    (v, db)

/-! ## Replica state (state.ts, most complete variant) -/

/-- The ordering used by `sortScans`: the comparator
`(a, b) => a.timestamp !== b.timestamp ? a.timestamp - b.timestamp
         : a.deviceId.localeCompare(b.deviceId)`
as a total preorder: `a` sorts no later than `b`. -/
def scanLe (a b : ScanEvent) : Prop :=
  a.timestamp < b.timestamp ∨ (a.timestamp = b.timestamp ∧ strLe a.deviceId b.deviceId)

instance : DecidableRel scanLe := fun _ _ =>
  inferInstanceAs (Decidable (_ ∨ _))

/-- Model of `sortScans` (state.ts): JS `Array.prototype.sort` is stable (ES2019),
and `List.insertionSort` is stable for the same total preorder; a stable
sort is uniquely determined by the preorder, so the two agree. -/
def sortScans (scans : List ScanEvent) : List ScanEvent :=
  List.insertionSort scanLe scans

/-- The in-memory append of `addScanEvent` (state.ts): initialize the
code's entry with the derived type if absent, push the event, re-sort that
code's list.  The event itself (fresh uuid, `Date.now()`) is injected. -/
def addScanEvent (st : LocalState) (e : ScanEvent) : LocalState :=
  let st₁ :=
    match lookupAssoc st e.qrCode with
    | none =>
        setAssoc st e.qrCode
          { type := if includesChar e.qrCode 'I' then PassType.infinite else PassType.oneUse
            scans := [] }
    | some _ => st
  match lookupAssoc st₁ e.qrCode with
  | some p => setAssoc st₁ e.qrCode { type := p.type, scans := sortScans (p.scans ++ [e]) }
  | none => st₁

/-- One loop iteration of `mergeDeltaScans` (state.ts): initialize the
entry when the code is unknown (type derived from the code string), then
append the scan unless its `scanId` is already present for that code. -/
def mergeOne (st : LocalState) (e : ScanEvent) : LocalState :=
  let st₁ :=
    match lookupAssoc st e.qrCode with
    | none =>
        setAssoc st e.qrCode
          { type := if includesChar e.qrCode 'I' then PassType.infinite else PassType.oneUse
            scans := [] }
    | some _ => st
  match lookupAssoc st₁ e.qrCode with
  | some p =>
      if p.scans.any (fun s => s.scanId = e.scanId) then st₁
      else setAssoc st₁ e.qrCode { type := p.type, scans := p.scans ++ [e] }
  | none => st₁

/-- Whether `mergeDeltaScans` would treat `e` as new against `st` (the
`exists` check, negated). -/
def isNewScan (st : LocalState) (e : ScanEvent) : Bool :=
  match lookupAssoc st e.qrCode with
  | none => true
  | some p => ! p.scans.any (fun s => s.scanId = e.scanId)

/-- The merge loop accumulating the state and the `newScans` return list. -/
def mergeStep (acc : LocalState × List ScanEvent) (e : ScanEvent) :
    LocalState × List ScanEvent :=
  (mergeOne acc.1 e, if isNewScan acc.1 e then acc.2 ++ [e] else acc.2)

/-- After the merge loop, `mergeDeltaScans` re-sorts every code's list:
`for (const qrCode in localState) sortScans(localState[qrCode].scans)`. -/
def sortAll (st : LocalState) : LocalState :=
  st.map (fun cp => (cp.1, { type := cp.2.type, scans := sortScans cp.2.scans }))

/-- Model of `mergeDeltaScans(incomingScans)` (state.ts), state and `newScans`
result.  An empty delta list returns immediately (no re-sort). -/
def mergeDeltaScansFull (st : LocalState) (incomingScans : List ScanEvent) :
    LocalState × List ScanEvent :=
  if incomingScans.isEmpty then (st, [])
  else
    let acc := incomingScans.foldl mergeStep (st, [])
    (sortAll acc.1, acc.2)

/-- The state evolution of `mergeDeltaScans`. -/
def mergeDeltaScans (st : LocalState) (incomingScans : List ScanEvent) : LocalState :=
  (mergeDeltaScansFull st incomingScans).1

/-- The flattening loop of `mergeFullState` (state.ts): all scans of the
snapshot in key order. -/
def flattenState (peerState : LocalState) : List ScanEvent :=
  peerState.foldl (fun acc cp => acc ++ cp.2.scans) []

/-- Model of `mergeFullState(peerState)` (state.ts): flatten and delegate to
`mergeDeltaScans`. -/
def mergeFullState (st : LocalState) (peerState : LocalState) : LocalState :=
  mergeDeltaScans st (flattenState peerState)

/-- Every scan id stored anywhere in the replica, in iteration order
(the collection loop of `calculateStateHash`). -/
def allScanIds (st : LocalState) : List String :=
  st.foldl (fun acc cp => acc ++ cp.2.scans.map (fun s => s.scanId)) []

/-- JS `id.substring(0, 8)` on the ASCII scan ids. -/
def take8 (s : String) : String := (s.data.take 8).asString

/-- Model of `calculateStateHash` (state.ts): sort all scan ids ascending (JS
default sort = code-unit lexicographic); `"empty"` when there are none,
otherwise `"{N}-{first[0..8]}-{last[0..8]}"`. -/
def calculateStateHash (st : LocalState) : String :=
  let sorted := List.insertionSort strLe (allScanIds st)
  if sorted.isEmpty then "empty"
  else
    toString sorted.length ++ "-" ++ take8 (sorted.headD "") ++ "-" ++
      take8 (sorted.getLastD "")

/-- Model of `Storage.getScansForQR` (storage.ts): stored scans of one code,
`ORDER BY timestamp ASC`. -/
def getScansForQR (db : List ScanEvent) (qrCode : String) : List ScanEvent :=
  List.insertionSort (fun a b => a.timestamp ≤ b.timestamp)
    (db.filter (fun s => s.qrCode = qrCode))

/-- Model of `Storage.loadState(qrCodes)` (storage.ts): for each code, the stored
scans and the type from the `pass_types` table, falling back to
`qrCode.includes('I') ? 'infinite' : 'one-use'` when the table misses. -/
def loadState (passTypesTable : List (String × PassType)) (db : List ScanEvent)
    (qrCodes : List String) : LocalState :=
  qrCodes.map (fun qrCode =>
    (qrCode,
     { type := match lookupAssoc passTypesTable qrCode with
               | some t => t
               | none => if includesChar qrCode 'I' then PassType.infinite else PassType.oneUse
       scans := getScansForQR db qrCode }))

/-- Observable per-code scan list: what `localState[c].scans` reads (and
the admission path consults), `[]` when the code is absent. -/
def scansAt (st : LocalState) (c : String) : List ScanEvent :=
  ((lookupAssoc st c).map PassState.scans).getD []

/-- Observable per-code type: `localState[c].type` when present. -/
def typeAt (st : LocalState) (c : String) : Option PassType :=
  (lookupAssoc st c).map PassState.type

/-- Events stored anywhere in the replica, in entry order. -/
def eventsOf : LocalState → List ScanEvent
  | [] => []
  | cp :: rest => cp.2.scans ++ eventsOf rest

/-- A sequence of `mergeDeltaScans` calls, one per received delta batch. -/
def applyBatches (st : LocalState) (batches : List (List ScanEvent)) : LocalState :=
  batches.foldl mergeDeltaScans st

/-! ## The inbound message handler (state.ts `serviceEvents.on("message")`) -/

/-- The `type` tags of `StateMessage` (types.ts). -/
inductive MsgType where
  | delta
  | fullState
  | stateRequest
  | ack
  | heartbeat
  | stateHash
deriving DecidableEq, Repr

/-- Source type `StateMessage` (types.ts): the parsed wire envelope. -/
structure StateMessage where
  type : MsgType
  messageId : Option String := none
  ackMessageId : Option String := none
  deltas : Option (List ScanEvent) := none
  fullState : Option LocalState := none
  stateHash : Option String := none
  sequenceNum : Int
  deviceId : String
  timestamp : Int
deriving DecidableEq, Repr

/-- Connection phases of a peer (types.ts `DeviceInfo.connectionState`). -/
inductive ConnState where
  | discovering
  | connected
  | synced
  | lost
deriving DecidableEq, Repr

/-- Source type `DeviceInfo` (types.ts). -/
structure DeviceInfo where
  deviceId : String
  lastSequence : Int
  lastSeen : Int
  lastHeartbeat : Option Int := none
  ipAddress : Option String := none
  stateHash : Option String := none
  connectionState : Option ConnState := none
deriving DecidableEq, Repr

/-- An entry of the `pendingAcks` map (state.ts). -/
structure PendingAck where
  message : String
  peerIp : String
  timestamp : Int
  attempts : Nat
  peerId : String
deriving DecidableEq, Repr

/-- The mutable module state of state.ts that the inbound handler touches:
device identity, sequence counter, replica, stored scans (SQLite `scans`
table), known-peer map, received-message-id cache and pending-ACK map. -/
structure P2PState where
  deviceId : String
  sequenceNumber : Int
  localState : LocalState
  scansDb : List ScanEvent
  knownDevices : List (String × DeviceInfo)
  receivedMessageIds : List String
  pendingAcks : List (String × PendingAck)
deriving Repr

/-- Destination of an outbound datagram. -/
inductive Dest where
  | broadcast
  | unicast (ip : String)
deriving DecidableEq, Repr

/-- An outbound datagram (`sendDelta` = broadcast, `sendDeltaToPeer` =
unicast). -/
structure Sent where
  dest : Dest
  msg : StateMessage
deriving DecidableEq, Repr

/-- The constant `MAX_RECEIVED_IDS` (state.ts). -/
def MAX_RECEIVED_IDS : Nat := 1000

/-- Model of `markMessageAsReceived` (state.ts): add to the id set (a JS `Set`
keeps insertion order and ignores re-adds), evicting the oldest 100 when
the size exceeds `MAX_RECEIVED_IDS`. -/
def markMessageAsReceived (ids : List String) (messageId : String) : List String :=
  let ids₁ := if ids.contains messageId then ids else ids ++ [messageId]
  if ids₁.length > MAX_RECEIVED_IDS then ids₁.drop 100 else ids₁

/-- Model of `isMessageReceived` (state.ts). -/
def isMessageReceived (ids : List String) (messageId : String) : Bool :=
  ids.contains messageId

/-- Model of `requestFullStateFromPeers` (state.ts): bump the sequence number and
broadcast a `state-request`. -/
def requestFullStateFromPeers (s : P2PState) (now : Int) : P2PState × List Sent :=
  ({ s with sequenceNumber := s.sequenceNumber + 1 },
   [{ dest := Dest.broadcast
      msg := { type := MsgType.stateRequest, sequenceNum := s.sequenceNumber + 1,
               deviceId := s.deviceId, timestamp := now } }])

/-- Model of `sendToAllPeers` (state.ts): broadcast when no peer is known, else
unicast to every known peer that has a (truthy) ip address. -/
def sendToAllPeers (devices : List (String × DeviceInfo)) (m : StateMessage) :
    List Sent :=
  if devices.isEmpty then [{ dest := Dest.broadcast, msg := m }]
  else devices.filterMap (fun kv =>
    (presentStr kv.2.ipAddress).map (fun ip => { dest := Dest.unicast ip, msg := m }))

/-- Model of `broadcastFullState` (state.ts): bump the sequence number and send the
whole replica to all known peers. -/
def broadcastFullState (s : P2PState) (now : Int) : P2PState × List Sent :=
  ({ s with sequenceNumber := s.sequenceNumber + 1 },
   sendToAllPeers s.knownDevices
     { type := MsgType.fullState, fullState := some s.localState,
       sequenceNum := s.sequenceNumber + 1, deviceId := s.deviceId, timestamp := now })

/-- Model of `sendAck` (state.ts): bump the sequence number and unicast an `ack`
carrying the received `messageId` back to the peer's ip. -/
def sendAck (s : P2PState) (messageId peerIp : String) (now : Int) :
    P2PState × List Sent :=
  ({ s with sequenceNumber := s.sequenceNumber + 1 },
   [{ dest := Dest.unicast peerIp
      msg := { type := MsgType.ack, ackMessageId := some messageId,
               sequenceNum := s.sequenceNumber + 1, deviceId := s.deviceId,
               timestamp := now } }])

/-- The merge-and-persist step of the `delta` and `full-state` dispatch
arms: `mergeDeltaScans` mutates the replica and `saveScanEvents` persists
the newly learned events. -/
def mergeAndPersist (s : P2PState) (ds : List ScanEvent) : P2PState :=
  let r := mergeDeltaScansFull s.localState ds
  { s with localState := r.1, scansDb := saveScanEvents s.scansDb r.2 }

/-- The inbound datagram handler (state.ts `serviceEvents.on("message")`),
after JSON parsing, as a function of the module state, the parsed message,
the datagram source address and the clock.  Returns the new state and the
datagrams sent in response.  Steps, in source order: drop self-echo; drop
duplicate `messageId`; record the `messageId`; upsert the peer record;
broadcast a `state-request` if the peer is new; dispatch on `type`. -/
def handleMessage (s : P2PState) (msg : StateMessage) (srcIp : String)
    (now : Int) : P2PState × List Sent :=
  if msg.deviceId = s.deviceId then (s, [])
  else if (match presentStr msg.messageId with
           | some m => isMessageReceived s.receivedMessageIds m
           | none => false) then (s, [])
  else
    let rids := match presentStr msg.messageId with
      | some m => markMessageAsReceived s.receivedMessageIds m
      | none => s.receivedMessageIds
    let existing := lookupAssoc s.knownDevices msg.deviceId
    let info : DeviceInfo :=
      { deviceId := msg.deviceId
        lastSequence := msg.sequenceNum
        lastSeen := now
        lastHeartbeat := if msg.type = MsgType.heartbeat then some now
                         else existing.bind DeviceInfo.lastHeartbeat
        ipAddress := some srcIp
        stateHash := match presentStr msg.stateHash with
                     | some h => some h
                     | none => existing.bind DeviceInfo.stateHash
        connectionState := some ConnState.connected }
    let isNewPeer := existing.isNone
    let s₁ := { s with receivedMessageIds := rids
                       knownDevices := setAssoc s.knownDevices msg.deviceId info }
    let step₁ := if isNewPeer then requestFullStateFromPeers s₁ now else (s₁, [])
    let s₂ := step₁.1
    let outs₁ := step₁.2
    match msg.type with
    | MsgType.delta =>
        let s₃ := match msg.deltas with
          | some ds => mergeAndPersist s₂ ds
          | none => s₂
        match presentStr msg.messageId with
        | some m =>
            if srcIp ≠ "" then
              let r := sendAck s₃ m srcIp now
              (r.1, outs₁ ++ r.2)
            else (s₃, outs₁)
        | none => (s₃, outs₁)
    | MsgType.fullState =>
        (match msg.fullState with
         | some fs => mergeAndPersist s₂ (flattenState fs)
         | none => s₂, outs₁)
    | MsgType.stateRequest =>
        let r := broadcastFullState s₂ now
        (r.1, outs₁ ++ r.2)
    | MsgType.ack =>
        (match presentStr msg.ackMessageId with
         | some am =>
             { s₂ with pendingAcks :=
                 s₂.pendingAcks.filter (fun kv => kv.1 ≠ am ++ "-" ++ msg.deviceId) }
         | none => s₂, outs₁)
    | MsgType.heartbeat => (s₂, outs₁)
    | MsgType.stateHash =>
        match presentStr msg.stateHash with
        | some h =>
            if h ≠ calculateStateHash s₂.localState then
              let r := requestFullStateFromPeers s₂ now
              (r.1, outs₁ ++ r.2)
            else
              ({ s₂ with knownDevices :=
                  match lookupAssoc s₂.knownDevices msg.deviceId with
                  | some d =>
                      setAssoc s₂.knownDevices msg.deviceId
                        { d with connectionState := some ConnState.synced }
                  | none => s₂.knownDevices }, outs₁)
        | none => (s₂, outs₁)

/-- The per-call parameters of one `handleScannedQRCode` invocation (the
fresh uuid and the clock are injected). -/
structure SubmitSession where
  code : String
  day : String
  nowMs : Int
  newScanId : String
  devId : String
deriving DecidableEq, Repr

/-- Progress of one in-flight `handleScannedQRCode` call.  The call has two
atomic CPU sections separated by its `await` suspension points: the
validation (which reads the store via `Storage.getScansForQROnDate`) and,
when allowed, the append (`addScanEvent` / `Storage.saveScanEvent`). -/
inductive SubmitPhase where
  | ready
  | validated (v : ScanValidationResult)
  | finished (v : ScanValidationResult)
deriving DecidableEq, Repr

/-- One scheduler step of an in-flight call against the shared store. -/
def submitStep (config : String → Option PassType) (db : List ScanEvent)
    (sess : SubmitSession) (ph : SubmitPhase) : List ScanEvent × SubmitPhase :=
  match ph with
  | SubmitPhase.ready =>
      (db, SubmitPhase.validated (validateScan (config sess.code)
        (getScansForQROnDate db sess.code sess.day) sess.nowMs))
  | SubmitPhase.validated v =>
      if v.allowed then
        (saveScanEvent db
           { scanId := sess.newScanId, qrCode := sess.code,
             timestamp := sess.nowMs, deviceId := sess.devId, date := sess.day },
         SubmitPhase.finished v)
      else (db, SubmitPhase.finished v)
  | SubmitPhase.finished v => (db, SubmitPhase.finished v)

/-- Run two overlapping `handleScannedQRCode` calls under a schedule:
`false` advances call A one step, `true` advances call B.  There is no
lock in the source, so any schedule is possible on the JS event loop. -/
def runTwo (config : String → Option PassType) (schedule : List Bool)
    (db : List ScanEvent) (A B : SubmitSession) (pa pb : SubmitPhase) :
    List ScanEvent × SubmitPhase × SubmitPhase :=
  match schedule with
  | [] => (db, pa, pb)
  | false :: rest =>
      let r := submitStep config db A pa
      runTwo config rest r.1 A B r.2 pb
  | true :: rest =>
      let r := submitStep config db B pb
      runTwo config rest r.1 A B pa r.2

/-- Whether a call has finished with an allow result. -/
def allowedOf : SubmitPhase → Bool
  | SubmitPhase.finished v => v.allowed
  | _ => false

/-! ## Basic lemmas about the association-list embedding of JS objects -/

theorem lookupAssoc_setAssoc {α : Type} (l : List (String × α)) (k k' : String) (v : α) :
    lookupAssoc (setAssoc l k v) k' = if k = k' then some v else lookupAssoc l k' := by
  induction l with
  | nil =>
      by_cases h : k = k' <;> simp [setAssoc, lookupAssoc, h]
  | cons hd tl ih =>
      obtain ⟨a, w⟩ := hd
      by_cases hak : a = k
      · subst hak
        by_cases hk : a = k' <;> simp [setAssoc, lookupAssoc, hk]
      · by_cases hak' : a = k'
        · subst hak'
          have hk : k ≠ a := fun h => hak h.symm
          simp [setAssoc, lookupAssoc, hak, hk]
        · simp [setAssoc, lookupAssoc, hak, hak', ih]

theorem allScanIds_aux (st : LocalState) (acc : List String) :
    st.foldl (fun acc cp => acc ++ cp.2.scans.map (fun s => s.scanId)) acc =
      acc ++ (eventsOf st).map (fun s => s.scanId) := by
  induction st generalizing acc with
  | nil => simp [eventsOf]
  | cons cp rest ih => simp [eventsOf, ih, List.append_assoc]

/-- The id-collection loop of `calculateStateHash` collects exactly one id
per stored event. -/
theorem allScanIds_eq (st : LocalState) :
    allScanIds st = (eventsOf st).map (fun s => s.scanId) := by
  simpa using allScanIds_aux st []

theorem mem_eventsOf_setAssoc (st : LocalState) (k : String) (p' : PassState)
    (hsub : ∀ x ∈ scansAt st k, x ∈ p'.scans) :
    ∀ x ∈ eventsOf st, x ∈ eventsOf (setAssoc st k p') := by
  induction st with
  | nil => simp [eventsOf]
  | cons hd tl ih =>
      obtain ⟨a, w⟩ := hd
      by_cases hak : a = k
      · subst hak
        intro x hx
        simp only [eventsOf, setAssoc, if_pos rfl, List.mem_append] at hx ⊢
        rcases hx with hx | hx
        · exact Or.inl (hsub x (by simp [scansAt, lookupAssoc, hx]))
        · exact Or.inr hx
      · intro x hx
        simp only [eventsOf, setAssoc, if_neg hak, List.mem_append] at hx ⊢
        rcases hx with hx | hx
        · exact Or.inl hx
        · refine Or.inr (ih ?_ x hx)
          intro y hy
          exact hsub y (by simpa [scansAt, lookupAssoc, hak] using hy)

theorem mem_eventsOf_sortAll (st : LocalState) (x : ScanEvent) :
    x ∈ eventsOf (sortAll st) ↔ x ∈ eventsOf st := by
  induction st with
  | nil => simp [sortAll, eventsOf]
  | cons hd tl ih =>
      simp [sortAll, eventsOf, sortScans, List.mem_insertionSort] at ih ⊢
      tauto

theorem scansAt_eq_of_lookup (st : LocalState) (c : String) (p : PassState)
    (h : lookupAssoc st c = some p) : scansAt st c = p.scans := by
  simp [scansAt, h]

theorem scansAt_eq_nil_of_lookup_none (st : LocalState) (c : String)
    (h : lookupAssoc st c = none) : scansAt st c = [] := by
  simp [scansAt, h]

/-! ## Admission lemmas -/

theorem validateScan_oneUse_used (todayScans : List ScanEvent) (nowMs : Int)
    (h : todayScans ≠ []) :
    validateScan (some PassType.oneUse) todayScans nowMs =
      { allowed := false
        reason := some DenyReason.oneUseAlreadyUsedToday
        todayScansCount := some todayScans.length } := by
  have hlen : todayScans.length > 0 := List.length_pos.mpr h
  simp [validateScan, hlen]

theorem validateScan_cooldown_iff (ty : PassType) (todayScans : List ScanEvent)
    (nowMs : Int) (hpass : ty = PassType.infinite ∨ todayScans = []) :
    validateScan (some ty) todayScans nowMs =
      (if ∃ s ∈ todayScans, s.timestamp > nowMs - COOLDOWN_MS then
        { allowed := false
          reason := some DenyReason.recentDuplicateScan
          todayScansCount := some todayScans.length }
      else
        { allowed := true, reason := none
          todayScansCount := some todayScans.length }) := by
  have hnotOneUse : ¬ (ty = PassType.oneUse ∧ todayScans.length > 0) := by
    rcases hpass with h | h
    · subst h; rintro ⟨h, -⟩; cases h
    · subst h; rintro ⟨-, h⟩; simp at h
  have hfil : (todayScans.filter (fun s => s.timestamp > nowMs - COOLDOWN_MS)).length > 0 ↔
      ∃ s ∈ todayScans, s.timestamp > nowMs - COOLDOWN_MS := by
    rw [gt_iff_lt, List.length_pos]
    constructor
    · intro hne
      obtain ⟨x, hx⟩ := List.exists_mem_of_ne_nil _ hne
      have := List.of_mem_filter hx
      exact ⟨x, List.mem_of_mem_filter hx, by simpa using this⟩
    · rintro ⟨s, hs, hgt⟩
      intro hnil
      have : s ∈ todayScans.filter (fun x => decide (x.timestamp > nowMs - COOLDOWN_MS)) :=
        List.mem_filter.mpr ⟨hs, by simpa using hgt⟩
      simp [hnil] at this
  by_cases hex : ∃ s ∈ todayScans, s.timestamp > nowMs - COOLDOWN_MS
  · have : (todayScans.filter (fun s => s.timestamp > nowMs - COOLDOWN_MS)).length > 0 :=
      hfil.mpr hex
    simp [validateScan, hnotOneUse, hex, this]
  · have : ¬ (todayScans.filter (fun s => s.timestamp > nowMs - COOLDOWN_MS)).length > 0 :=
      fun h => hex (hfil.mp h)
    simp [validateScan, hnotOneUse, hex, this]

/-! ## Claims C1 and C2: the admission predicate -/

/-- C1: for every one-use code that already has a scan recorded under the
current day key, `validateScan` (inside `handleScannedQRCode` /
`submitScan`) denies with the one-use reason and appends nothing to the
store, for every clock value — the one-use check is applied before the
cooldown check, so elapsed time is irrelevant. -/
theorem C1_oneUse_denied_no_append
    (config : String → Option PassType) (db : List ScanEvent)
    (code day : String) (nowMs : Int) (newScanId devId : String)
    (hty : config code = some PassType.oneUse)
    (htoday : getScansForQROnDate db code day ≠ []) :
    submitScan config db code day nowMs newScanId devId =
      ({ allowed := false
         reason := some DenyReason.oneUseAlreadyUsedToday
         todayScansCount := some (getScansForQROnDate db code day).length }, db) := by
  simp [submitScan, hty, validateScan_oneUse_used _ _ htoday]

/-- C1 witness: the solo-admit scenario — one-use code scanned at
t0 = 1000000 ms, submitted again 31 s later: denied, store unchanged. -/
theorem C1_witness :
    submitScan (fun c => if c = "SAT25SD724M2" then some PassType.oneUse else none)
        [{ scanId := "a1", qrCode := "SAT25SD724M2", timestamp := 1000000,
           deviceId := "devA", date := "14nov" }]
        "SAT25SD724M2" "14nov" (1000000 + 31 * 1000) "a2" "devA" =
      ({ allowed := false
         reason := some DenyReason.oneUseAlreadyUsedToday
         todayScansCount := some (getScansForQROnDate
             [{ scanId := "a1", qrCode := "SAT25SD724M2", timestamp := 1000000,
                deviceId := "devA", date := "14nov" }] "SAT25SD724M2" "14nov").length },
       [{ scanId := "a1", qrCode := "SAT25SD724M2", timestamp := 1000000,
          deviceId := "devA", date := "14nov" }]) :=
  C1_oneUse_denied_no_append _ _ _ _ _ _ _ (by decide) (by decide)

/-- C2: for a known code that passes the one-use check, `validateScan`
denies with the cooldown reason exactly when some scan of that code on the
current day has a timestamp greater than now − COOLDOWN_MS, where
COOLDOWN_MS is 30 000 ms (part_003: `30 * 1000`), and otherwise allows,
returning the number of that code's scans on the current day. -/
theorem C2_cooldown_characterization (ty : PassType)
    (todayScans : List ScanEvent) (nowMs : Int)
    (hpass : ty = PassType.infinite ∨ todayScans = []) :
    COOLDOWN_MS = 30000 ∧
    ((∃ s ∈ todayScans, s.timestamp > nowMs - COOLDOWN_MS) →
       validateScan (some ty) todayScans nowMs =
         { allowed := false
           reason := some DenyReason.recentDuplicateScan
           todayScansCount := some todayScans.length }) ∧
    ((¬ ∃ s ∈ todayScans, s.timestamp > nowMs - COOLDOWN_MS) →
       validateScan (some ty) todayScans nowMs =
         { allowed := true, reason := none
           todayScansCount := some todayScans.length }) := by
  refine ⟨rfl, ?_, ?_⟩ <;> intro h <;>
    rw [validateScan_cooldown_iff _ _ _ hpass] <;> simp [h]

/-- C2 witness: the cooldown scenario — infinite code scanned at
t0 = 1000000 ms; a submit at t0+5 s is denied for cooldown, a submit at
t0+31 s is allowed with today_count = 1. -/
theorem C2_witness :
    (validateScan (some PassType.infinite)
        [{ scanId := "b1", qrCode := "SAT25IBLXRRU", timestamp := 1000000,
           deviceId := "devA", date := "14nov" }] (1000000 + 5 * 1000) =
      { allowed := false
        reason := some DenyReason.recentDuplicateScan
        todayScansCount := some 1 }) ∧
    (validateScan (some PassType.infinite)
        [{ scanId := "b1", qrCode := "SAT25IBLXRRU", timestamp := 1000000,
           deviceId := "devA", date := "14nov" }] (1000000 + 31 * 1000) =
      { allowed := true, reason := none, todayScansCount := some 1 }) := by
  constructor
  · exact (C2_cooldown_characterization _ _ _ (Or.inl rfl)).2.1 (by decide)
  · exact (C2_cooldown_characterization _ _ _ (Or.inl rfl)).2.2 (by decide)

/-! ## Canonical forms of the state mutators -/

theorem setAssoc_setAssoc_same {α : Type} (l : List (String × α)) (k : String)
    (v w : α) : setAssoc (setAssoc l k v) k w = setAssoc l k w := by
  induction l with
  | nil => simp [setAssoc]
  | cons hd tl ih =>
      obtain ⟨a, u⟩ := hd
      by_cases hak : a = k <;> simp [setAssoc, hak, ih]

theorem scansAt_setAssoc (st : LocalState) (k : String) (p : PassState)
    (c : String) :
    scansAt (setAssoc st k p) c = if k = c then p.scans else scansAt st c := by
  by_cases h : k = c <;> simp [scansAt, lookupAssoc_setAssoc, h]

theorem typeAt_setAssoc (st : LocalState) (k : String) (p : PassState)
    (c : String) :
    typeAt (setAssoc st k p) c = if k = c then some p.type else typeAt st c := by
  by_cases h : k = c <;> simp [typeAt, lookupAssoc_setAssoc, h]

theorem mergeOne_eq (st : LocalState) (e : ScanEvent) :
    mergeOne st e =
      match lookupAssoc st e.qrCode with
      | none =>
          setAssoc st e.qrCode
            { type := if includesChar e.qrCode 'I' then PassType.infinite else PassType.oneUse
              scans := [e] }
      | some p =>
          if p.scans.any (fun s => s.scanId = e.scanId) then st
          else setAssoc st e.qrCode { type := p.type, scans := p.scans ++ [e] } := by
  unfold mergeOne
  cases h : lookupAssoc st e.qrCode with
  | some p => simp [h]
  | none =>
      have hlk : lookupAssoc
          (setAssoc st e.qrCode
            { type := if includesChar e.qrCode 'I' then PassType.infinite else PassType.oneUse
              scans := ([] : List ScanEvent) }) e.qrCode =
          some { type := if includesChar e.qrCode 'I' then PassType.infinite else PassType.oneUse
                 scans := ([] : List ScanEvent) } := by
        simp [lookupAssoc_setAssoc]
      simp [h, hlk, setAssoc_setAssoc_same]

theorem addScanEvent_eq (st : LocalState) (e : ScanEvent) :
    addScanEvent st e =
      match lookupAssoc st e.qrCode with
      | none =>
          setAssoc st e.qrCode
            { type := if includesChar e.qrCode 'I' then PassType.infinite else PassType.oneUse
              scans := sortScans [e] }
      | some p =>
          setAssoc st e.qrCode { type := p.type, scans := sortScans (p.scans ++ [e]) } := by
  unfold addScanEvent
  cases h : lookupAssoc st e.qrCode with
  | some p => simp [h]
  | none =>
      have hlk : lookupAssoc
          (setAssoc st e.qrCode
            { type := if includesChar e.qrCode 'I' then PassType.infinite else PassType.oneUse
              scans := ([] : List ScanEvent) }) e.qrCode =
          some { type := if includesChar e.qrCode 'I' then PassType.infinite else PassType.oneUse
                 scans := ([] : List ScanEvent) } := by
        simp [lookupAssoc_setAssoc]
      simp [h, hlk, setAssoc_setAssoc_same]

/-! ## Type admission through the merge -/

theorem lookupAssoc_mergeOne_ne (st : LocalState) (e : ScanEvent) (c : String)
    (hne : c ≠ e.qrCode) :
    lookupAssoc (mergeOne st e) c = lookupAssoc st c := by
  have hne' : e.qrCode ≠ c := fun hh => hne hh.symm
  rw [mergeOne_eq]
  cases h : lookupAssoc st e.qrCode with
  | none => rw [lookupAssoc_setAssoc, if_neg hne']
  | some p =>
      by_cases hdup : p.scans.any (fun s => s.scanId = e.scanId)
      · simp [hdup]
      · simp [hdup, lookupAssoc_setAssoc, hne']

theorem lookupAssoc_mergeOne_self (st : LocalState) (e : ScanEvent) :
    lookupAssoc (mergeOne st e) e.qrCode =
      some (match lookupAssoc st e.qrCode with
            | none => { type := deriveType e.qrCode, scans := [e] }
            | some p =>
                if p.scans.any (fun s => s.scanId = e.scanId) then p
                else { type := p.type, scans := p.scans ++ [e] }) := by
  rw [mergeOne_eq]
  cases h : lookupAssoc st e.qrCode with
  | none => simp [lookupAssoc_setAssoc, deriveType]
  | some p =>
      by_cases hdup : p.scans.any (fun s => s.scanId = e.scanId)
      · simp [hdup, h]
      · simp [hdup, lookupAssoc_setAssoc]

theorem typeAt_mergeOne (st : LocalState) (e : ScanEvent) (c : String) :
    typeAt (mergeOne st e) c =
      if (typeAt st c).isSome then typeAt st c
      else if c = e.qrCode then some (deriveType c) else none := by
  by_cases hc : c = e.qrCode
  · subst hc
    rw [typeAt, lookupAssoc_mergeOne_self]
    cases h : lookupAssoc st e.qrCode with
    | none => simp [typeAt, h]
    | some p =>
        by_cases hdup : p.scans.any (fun s => s.scanId = e.scanId) <;>
          simp [typeAt, h, hdup]
  · rw [typeAt, lookupAssoc_mergeOne_ne st e c hc]
    cases h : lookupAssoc st c with
    | none => simp [typeAt, h, hc]
    | some p => simp [typeAt, h]

theorem typeAt_foldl_mergeOne (es : List ScanEvent) (st : LocalState) (c : String) :
    typeAt (es.foldl mergeOne st) c =
      if (typeAt st c).isSome then typeAt st c
      else if ∃ e ∈ es, e.qrCode = c then some (deriveType c) else none := by
  induction es generalizing st with
  | nil =>
      cases h : typeAt st c <;> simp [h]
  | cons e es ih =>
      rw [List.foldl_cons, ih, typeAt_mergeOne]
      cases h : typeAt st c with
      | some t => simp [h]
      | none =>
          by_cases hc : c = e.qrCode
          · subst hc
            simp [h]
          · have : ¬ e.qrCode = c := fun hh => hc hh.symm
            simp [h, hc, this]

theorem lookupAssoc_sortAll (st : LocalState) (c : String) :
    lookupAssoc (sortAll st) c =
      (lookupAssoc st c).map (fun p => { type := p.type, scans := sortScans p.scans }) := by
  induction st with
  | nil => simp [sortAll, lookupAssoc]
  | cons hd tl ih =>
      obtain ⟨a, w⟩ := hd
      by_cases hac : a = c
      · simp [sortAll, lookupAssoc, hac]
      · simp only [sortAll, List.map_cons, lookupAssoc, hac, if_false]
        simpa [sortAll] using ih

theorem typeAt_sortAll (st : LocalState) (c : String) :
    typeAt (sortAll st) c = typeAt st c := by
  rw [typeAt, typeAt, lookupAssoc_sortAll]
  cases lookupAssoc st c <;> simp

theorem foldl_mergeStep_fst (es : List ScanEvent) (st : LocalState)
    (ns : List ScanEvent) :
    (es.foldl mergeStep (st, ns)).1 = es.foldl mergeOne st := by
  induction es generalizing st ns with
  | nil => rfl
  | cons e es ih => simpa [mergeStep] using ih (mergeOne st e) _

theorem mergeDeltaScans_nil (st : LocalState) : mergeDeltaScans st [] = st := rfl

theorem mergeDeltaScans_cons (st : LocalState) (e : ScanEvent) (es : List ScanEvent) :
    mergeDeltaScans st (e :: es) = sortAll ((e :: es).foldl mergeOne st) := by
  unfold mergeDeltaScans mergeDeltaScansFull
  simp [foldl_mergeStep_fst, mergeStep]

theorem typeAt_mergeDeltaScans (st : LocalState) (es : List ScanEvent) (c : String) :
    typeAt (mergeDeltaScans st es) c =
      if (typeAt st c).isSome then typeAt st c
      else if ∃ e ∈ es, e.qrCode = c then some (deriveType c) else none := by
  cases es with
  | nil =>
      rw [mergeDeltaScans_nil]
      cases h : typeAt st c <;> simp [h]
  | cons e es =>
      rw [mergeDeltaScans_cons, typeAt_sortAll, typeAt_foldl_mergeOne]

theorem typeAt_applyBatches (bs : List (List ScanEvent)) (st : LocalState) (c : String) :
    typeAt (applyBatches st bs) c =
      if (typeAt st c).isSome then typeAt st c
      else if ∃ e ∈ bs.flatten, e.qrCode = c then some (deriveType c) else none := by
  induction bs generalizing st with
  | nil =>
      cases h : typeAt st c <;> simp [applyBatches, h]
  | cons b bs ih =>
      rw [show applyBatches st (b :: bs) = applyBatches (mergeDeltaScans st b) bs from rfl,
        ih, typeAt_mergeDeltaScans]
      have hsplit : (∃ e ∈ (b :: bs).flatten, e.qrCode = c) ↔
          ((∃ e ∈ b, e.qrCode = c) ∨ ∃ e ∈ bs.flatten, e.qrCode = c) := by
        simp only [List.flatten_cons, List.mem_append]
        constructor
        · rintro ⟨e, he | he, hq⟩
          · exact Or.inl ⟨e, he, hq⟩
          · exact Or.inr ⟨e, he, hq⟩
        · rintro (⟨e, he, hq⟩ | ⟨e, he, hq⟩)
          · exact ⟨e, Or.inl he, hq⟩
          · exact ⟨e, Or.inr he, hq⟩
      cases h : typeAt st c with
      | some t => simp [h]
      | none =>
          simp only [hsplit]
          by_cases hb : ∃ e ∈ b, e.qrCode = c
          · simp [hb]
          · simp only [or_iff_right hb]
            simp [hb]

/-! ## Event membership through the merge -/

theorem mem_sortScans (l : List ScanEvent) (x : ScanEvent) :
    x ∈ sortScans l ↔ x ∈ l := List.mem_insertionSort _

theorem scansAt_sortAll (st : LocalState) (c : String) :
    scansAt (sortAll st) c = sortScans (scansAt st c) := by
  rw [scansAt, lookupAssoc_sortAll]
  cases h : lookupAssoc st c with
  | none => simp [scansAt, h, sortScans]
  | some p => simp [scansAt, h]

theorem scansAt_mergeOne_ne (st : LocalState) (e : ScanEvent) (c : String)
    (hne : c ≠ e.qrCode) :
    scansAt (mergeOne st e) c = scansAt st c := by
  rw [scansAt, lookupAssoc_mergeOne_ne st e c hne, scansAt]

theorem scansAt_mergeOne_self (st : LocalState) (e : ScanEvent) :
    scansAt (mergeOne st e) e.qrCode =
      if (scansAt st e.qrCode).any (fun s => s.scanId = e.scanId) then
        scansAt st e.qrCode
      else scansAt st e.qrCode ++ [e] := by
  rw [scansAt, lookupAssoc_mergeOne_self]
  cases h : lookupAssoc st e.qrCode with
  | none => simp [scansAt, h]
  | some p =>
      by_cases hdup : p.scans.any (fun s => s.scanId = e.scanId) <;>
        simp [scansAt, h, hdup]

/-- Under a scan-id-injective universe `U` of events, one merge-loop step
adds exactly `e` to the entry of `e.qrCode` (or nothing, when `e` was
already there). -/
theorem mem_scansAt_mergeOne (U : List ScanEvent)
    (hinj : ∀ a ∈ U, ∀ b ∈ U, a.scanId = b.scanId → a = b)
    (st : LocalState) (hst : ∀ c, ∀ s ∈ scansAt st c, s ∈ U)
    (e : ScanEvent) (heU : e ∈ U) (c : String) (x : ScanEvent) :
    x ∈ scansAt (mergeOne st e) c ↔
      x ∈ scansAt st c ∨ (c = e.qrCode ∧ x = e) := by
  by_cases hc : c = e.qrCode
  · subst hc
    rw [scansAt_mergeOne_self]
    by_cases hdup : (scansAt st e.qrCode).any (fun s => s.scanId = e.scanId)
    · rw [if_pos hdup]
      have heIn : e ∈ scansAt st e.qrCode := by
        rcases List.any_eq_true.mp hdup with ⟨s, hs, hsid⟩
        have : s = e := hinj s (hst e.qrCode s hs) e heU (by simpa using hsid)
        exact this ▸ hs
      constructor
      · exact fun h => Or.inl h
      · rintro (h | ⟨-, rfl⟩)
        · exact h
        · exact heIn
    · rw [if_neg hdup]
      simp [List.mem_append]
  · rw [scansAt_mergeOne_ne st e c hc]
    simp [hc]

theorem stateIn_mergeOne (U : List ScanEvent)
    (hinj : ∀ a ∈ U, ∀ b ∈ U, a.scanId = b.scanId → a = b)
    (st : LocalState) (hst : ∀ c, ∀ s ∈ scansAt st c, s ∈ U)
    (e : ScanEvent) (heU : e ∈ U) :
    ∀ c, ∀ s ∈ scansAt (mergeOne st e) c, s ∈ U := by
  intro c s hs
  rcases (mem_scansAt_mergeOne U hinj st hst e heU c s).mp hs with h | ⟨-, rfl⟩
  · exact hst c s h
  · exact heU

theorem mem_scansAt_foldl_mergeOne (U : List ScanEvent)
    (hinj : ∀ a ∈ U, ∀ b ∈ U, a.scanId = b.scanId → a = b) :
    ∀ (es : List ScanEvent) (st : LocalState),
      (∀ c, ∀ s ∈ scansAt st c, s ∈ U) → (∀ e ∈ es, e ∈ U) →
      ∀ (c : String) (x : ScanEvent),
        (x ∈ scansAt (es.foldl mergeOne st) c ↔
          x ∈ scansAt st c ∨ (x ∈ es ∧ x.qrCode = c)) := by
  intro es
  induction es with
  | nil => intro st _ _ c x; simp
  | cons e es ih =>
      intro st hst hes c x
      have heU : e ∈ U := hes e (by simp)
      have hes' : ∀ e' ∈ es, e' ∈ U := fun e' h => hes e' (by simp [h])
      rw [List.foldl_cons,
        ih (mergeOne st e) (stateIn_mergeOne U hinj st hst e heU) hes' c x,
        mem_scansAt_mergeOne U hinj st hst e heU c x]
      constructor
      · rintro ((h | ⟨hc, rfl⟩) | ⟨hx, hq⟩)
        · exact Or.inl h
        · exact Or.inr ⟨List.mem_cons_self _ _, hc.symm⟩
        · exact Or.inr ⟨List.mem_cons_of_mem _ hx, hq⟩
      · rintro (h | ⟨hmem, hq⟩)
        · exact Or.inl (Or.inl h)
        · rcases List.mem_cons.mp hmem with rfl | hx
          · exact Or.inl (Or.inr ⟨hq.symm, rfl⟩)
          · exact Or.inr ⟨hx, hq⟩

theorem mem_scansAt_mergeDeltaScans (U : List ScanEvent)
    (hinj : ∀ a ∈ U, ∀ b ∈ U, a.scanId = b.scanId → a = b)
    (st : LocalState) (hst : ∀ c, ∀ s ∈ scansAt st c, s ∈ U)
    (es : List ScanEvent) (hes : ∀ e ∈ es, e ∈ U) (c : String) (x : ScanEvent) :
    x ∈ scansAt (mergeDeltaScans st es) c ↔
      x ∈ scansAt st c ∨ (x ∈ es ∧ x.qrCode = c) := by
  cases es with
  | nil => simp [mergeDeltaScans_nil]
  | cons e es =>
      rw [mergeDeltaScans_cons, scansAt_sortAll, mem_sortScans,
        mem_scansAt_foldl_mergeOne U hinj (e :: es) st hst hes c x]

theorem stateIn_mergeDeltaScans (U : List ScanEvent)
    (hinj : ∀ a ∈ U, ∀ b ∈ U, a.scanId = b.scanId → a = b)
    (st : LocalState) (hst : ∀ c, ∀ s ∈ scansAt st c, s ∈ U)
    (es : List ScanEvent) (hes : ∀ e ∈ es, e ∈ U) :
    ∀ c, ∀ s ∈ scansAt (mergeDeltaScans st es) c, s ∈ U := by
  intro c s hs
  rcases (mem_scansAt_mergeDeltaScans U hinj st hst es hes c s).mp hs with h | ⟨hx, -⟩
  · exact hst c s h
  · exact hes s hx

theorem mem_scansAt_applyBatches (U : List ScanEvent)
    (hinj : ∀ a ∈ U, ∀ b ∈ U, a.scanId = b.scanId → a = b) :
    ∀ (bs : List (List ScanEvent)) (st : LocalState),
      (∀ c, ∀ s ∈ scansAt st c, s ∈ U) → (∀ e ∈ bs.flatten, e ∈ U) →
      ∀ (c : String) (x : ScanEvent),
        (x ∈ scansAt (applyBatches st bs) c ↔
          x ∈ scansAt st c ∨ (x ∈ bs.flatten ∧ x.qrCode = c)) := by
  intro bs
  induction bs with
  | nil => intro st _ _ c x; simp [applyBatches]
  | cons b bs ih =>
      intro st hst hbs c x
      have hb : ∀ e ∈ b, e ∈ U := fun e h =>
        hbs e (by simp [List.flatten_cons, List.mem_append, h])
      have hbs' : ∀ e ∈ bs.flatten, e ∈ U := fun e h =>
        hbs e (by simp [List.flatten_cons, List.mem_append, h])
      rw [show applyBatches st (b :: bs) = applyBatches (mergeDeltaScans st b) bs from rfl,
        ih (mergeDeltaScans st b) (stateIn_mergeDeltaScans U hinj st hst b hb) hbs' c x,
        mem_scansAt_mergeDeltaScans U hinj st hst b hb c x]
      simp only [List.flatten_cons, List.mem_append]
      tauto

/-! ## Monotonicity of the stored event set -/

theorem mem_eventsOf_addScanEvent (st : LocalState) (e : ScanEvent) :
    ∀ x ∈ eventsOf st, x ∈ eventsOf (addScanEvent st e) := by
  rw [addScanEvent_eq]
  cases h : lookupAssoc st e.qrCode with
  | none =>
      intro x hx
      refine mem_eventsOf_setAssoc st e.qrCode _ ?_ x hx
      intro y hy
      rw [scansAt_eq_nil_of_lookup_none st _ h] at hy
      cases hy
  | some p =>
      intro x hx
      refine mem_eventsOf_setAssoc st e.qrCode _ ?_ x hx
      intro y hy
      rw [scansAt_eq_of_lookup st _ p h] at hy
      simp only [mem_sortScans, List.mem_append]
      exact Or.inl hy

theorem mem_eventsOf_mergeOne (st : LocalState) (e : ScanEvent) :
    ∀ x ∈ eventsOf st, x ∈ eventsOf (mergeOne st e) := by
  rw [mergeOne_eq]
  cases h : lookupAssoc st e.qrCode with
  | none =>
      intro x hx
      refine mem_eventsOf_setAssoc st e.qrCode _ ?_ x hx
      intro y hy
      rw [scansAt_eq_nil_of_lookup_none st _ h] at hy
      cases hy
  | some p =>
      by_cases hdup : p.scans.any (fun s => s.scanId = e.scanId)
      · simp only [hdup, if_true]
        exact fun x hx => hx
      · simp only [hdup, if_false]
        intro x hx
        refine mem_eventsOf_setAssoc st e.qrCode _ ?_ x hx
        intro y hy
        rw [scansAt_eq_of_lookup st _ p h] at hy
        simp only [List.mem_append]
        exact Or.inl hy

theorem mem_eventsOf_foldl_mergeOne (es : List ScanEvent) (st : LocalState) :
    ∀ x ∈ eventsOf st, x ∈ eventsOf (es.foldl mergeOne st) := by
  induction es generalizing st with
  | nil => exact fun x hx => hx
  | cons e es ih =>
      intro x hx
      exact ih (mergeOne st e) x (mem_eventsOf_mergeOne st e x hx)

theorem mem_eventsOf_mergeDeltaScans (st : LocalState) (es : List ScanEvent) :
    ∀ x ∈ eventsOf st, x ∈ eventsOf (mergeDeltaScans st es) := by
  cases es with
  | nil => rw [mergeDeltaScans_nil]; exact fun x hx => hx
  | cons e es =>
      rw [mergeDeltaScans_cons]
      intro x hx
      exact (mem_eventsOf_sortAll _ x).mpr
        (mem_eventsOf_foldl_mergeOne (e :: es) st x hx)

theorem lookupAssoc_map_self {α : Type} (f : String → α) (l : List String)
    (c : String) (h : c ∈ l) :
    lookupAssoc (l.map (fun k => (k, f k))) c = some (f c) := by
  induction l with
  | nil => cases h
  | cons k l ih =>
      by_cases hk : k = c
      · subst hk; simp [lookupAssoc]
      · rcases List.mem_cons.mp h with rfl | hmem
        · exact absurd rfl hk
        · simp [lookupAssoc, hk, ih hmem]

/-! ## Claim C3: order independence of the merge -/

/-- C3 counterexample: two distinct events of the same code with equal
`(timestamp, deviceId)` delivered in the two orders.  The multiset of
delivered events is the same, but the cached per-code orderings differ,
because `sortScans` keys on `(timestamp, deviceId)` only and the (stable)
sort therefore preserves the differing insertion orders. -/
theorem C3_counterexample :
    ([[{ scanId := "id1", qrCode := "SAT25SD724M2", timestamp := 100,
         deviceId := "dev", date := "14nov" }],
      [{ scanId := "id2", qrCode := "SAT25SD724M2", timestamp := 100,
         deviceId := "dev", date := "14nov" }]] : List (List ScanEvent)).flatten.Perm
      ([[{ scanId := "id2", qrCode := "SAT25SD724M2", timestamp := 100,
           deviceId := "dev", date := "14nov" }],
        [{ scanId := "id1", qrCode := "SAT25SD724M2", timestamp := 100,
           deviceId := "dev", date := "14nov" }]] : List (List ScanEvent)).flatten ∧
    applyBatches []
        [[{ scanId := "id1", qrCode := "SAT25SD724M2", timestamp := 100,
            deviceId := "dev", date := "14nov" }],
         [{ scanId := "id2", qrCode := "SAT25SD724M2", timestamp := 100,
            deviceId := "dev", date := "14nov" }]] ≠
      applyBatches []
        [[{ scanId := "id2", qrCode := "SAT25SD724M2", timestamp := 100,
            deviceId := "dev", date := "14nov" }],
         [{ scanId := "id1", qrCode := "SAT25SD724M2", timestamp := 100,
            deviceId := "dev", date := "14nov" }]] := by
  constructor
  · decide
  · decide

/-- C3 (amended): for two sequences of `mergeDeltaScans` calls that deliver
the same multiset of events to the same initial replica, when no two
distinct events involved share a `scanId`, the resulting replicas carry the
same type for every code and the same set of scan events for every code.
(The cached per-code sequences themselves can differ when two distinct
events of a code tie on `(timestamp, deviceId)` — see the counterexample —
so identity of the full state, including the cached ordering, does not
hold.) -/
theorem C3_merge_order_independent_sets (U : List ScanEvent)
    (hinj : ∀ a ∈ U, ∀ b ∈ U, a.scanId = b.scanId → a = b)
    (st : LocalState) (hst : ∀ c, ∀ s ∈ scansAt st c, s ∈ U)
    (bs₁ bs₂ : List (List ScanEvent))
    (h₁ : ∀ e ∈ bs₁.flatten, e ∈ U)
    (hperm : bs₁.flatten.Perm bs₂.flatten) (c : String) (x : ScanEvent) :
    typeAt (applyBatches st bs₁) c = typeAt (applyBatches st bs₂) c ∧
    (x ∈ scansAt (applyBatches st bs₁) c ↔ x ∈ scansAt (applyBatches st bs₂) c) := by
  have h₂ : ∀ e ∈ bs₂.flatten, e ∈ U := fun e h => h₁ e (hperm.mem_iff.mpr h)
  constructor
  · rw [typeAt_applyBatches, typeAt_applyBatches]
    have hex : (∃ e ∈ bs₁.flatten, e.qrCode = c) ↔ (∃ e ∈ bs₂.flatten, e.qrCode = c) := by
      constructor
      · rintro ⟨e, he, hq⟩; exact ⟨e, hperm.mem_iff.mp he, hq⟩
      · rintro ⟨e, he, hq⟩; exact ⟨e, hperm.mem_iff.mpr he, hq⟩
    simp only [hex]
  · rw [mem_scansAt_applyBatches U hinj bs₁ st hst h₁ c x,
      mem_scansAt_applyBatches U hinj bs₂ st hst h₂ c x, hperm.mem_iff]

/-- C3 witness: two single-event batches with distinct scan ids delivered
in both orders to the empty replica. -/
theorem C3_witness :
    typeAt (applyBatches []
        [[{ scanId := "w1", qrCode := "SAT25SD724M2", timestamp := 100,
            deviceId := "devA", date := "14nov" }],
         [{ scanId := "w2", qrCode := "SAT25SD724M2", timestamp := 200,
            deviceId := "devB", date := "14nov" }]]) "SAT25SD724M2" =
      typeAt (applyBatches []
        [[{ scanId := "w2", qrCode := "SAT25SD724M2", timestamp := 200,
            deviceId := "devB", date := "14nov" }],
         [{ scanId := "w1", qrCode := "SAT25SD724M2", timestamp := 100,
            deviceId := "devA", date := "14nov" }]]) "SAT25SD724M2" ∧
    ({ scanId := "w1", qrCode := "SAT25SD724M2", timestamp := 100,
       deviceId := "devA", date := "14nov" } ∈
        scansAt (applyBatches []
          [[{ scanId := "w1", qrCode := "SAT25SD724M2", timestamp := 100,
              deviceId := "devA", date := "14nov" }],
           [{ scanId := "w2", qrCode := "SAT25SD724M2", timestamp := 200,
              deviceId := "devB", date := "14nov" }]]) "SAT25SD724M2" ↔
      { scanId := "w1", qrCode := "SAT25SD724M2", timestamp := 100,
        deviceId := "devA", date := "14nov" } ∈
        scansAt (applyBatches []
          [[{ scanId := "w2", qrCode := "SAT25SD724M2", timestamp := 200,
              deviceId := "devB", date := "14nov" }],
           [{ scanId := "w1", qrCode := "SAT25SD724M2", timestamp := 100,
              deviceId := "devA", date := "14nov" }]]) "SAT25SD724M2") :=
  C3_merge_order_independent_sets
    [{ scanId := "w1", qrCode := "SAT25SD724M2", timestamp := 100,
       deviceId := "devA", date := "14nov" },
     { scanId := "w2", qrCode := "SAT25SD724M2", timestamp := 200,
       deviceId := "devB", date := "14nov" }]
    (by decide) []
    (by intro c s hs; simp [scansAt, lookupAssoc] at hs)
    _ _ (by decide) (by decide) _ _

/-! ## Claim C4: the stored scan-id set never shrinks -/

/-- C4: every replica mutation — the local append `addScanEvent`, the delta
merge `mergeDeltaScans`, and the full-state merge `mergeFullState` — leaves
the set of scan ids present in the replica before the operation a subset of
the set present after it. -/
theorem C4_scanIds_monotone :
    (∀ st e, ∀ id ∈ allScanIds st, id ∈ allScanIds (addScanEvent st e)) ∧
    (∀ st es, ∀ id ∈ allScanIds st, id ∈ allScanIds (mergeDeltaScans st es)) ∧
    (∀ st snap, ∀ id ∈ allScanIds st, id ∈ allScanIds (mergeFullState st snap)) := by
  refine ⟨?_, ?_, ?_⟩
  · intro st e id hid
    rw [allScanIds_eq] at hid ⊢
    obtain ⟨s, hs, rfl⟩ := List.mem_map.mp hid
    exact List.mem_map.mpr ⟨s, mem_eventsOf_addScanEvent st e s hs, rfl⟩
  · intro st es id hid
    rw [allScanIds_eq] at hid ⊢
    obtain ⟨s, hs, rfl⟩ := List.mem_map.mp hid
    exact List.mem_map.mpr ⟨s, mem_eventsOf_mergeDeltaScans st es s hs, rfl⟩
  · intro st snap id hid
    rw [allScanIds_eq] at hid ⊢
    obtain ⟨s, hs, rfl⟩ := List.mem_map.mp hid
    exact List.mem_map.mpr ⟨s, mem_eventsOf_mergeDeltaScans st (flattenState snap) s hs, rfl⟩

/-- C4 witness: an existing scan id survives a local append, a delta merge
and a full-state merge at concrete inputs. -/
theorem C4_witness :
    ("a1" ∈ allScanIds (addScanEvent
        [("SAT25SD724M2",
          { type := PassType.oneUse
            scans := [{ scanId := "a1", qrCode := "SAT25SD724M2", timestamp := 100,
                        deviceId := "devA", date := "14nov" }] })]
        { scanId := "a2", qrCode := "SAT25SD724M2", timestamp := 200,
          deviceId := "devA", date := "14nov" })) ∧
    ("a1" ∈ allScanIds (mergeDeltaScans
        [("SAT25SD724M2",
          { type := PassType.oneUse
            scans := [{ scanId := "a1", qrCode := "SAT25SD724M2", timestamp := 100,
                        deviceId := "devA", date := "14nov" }] })]
        [{ scanId := "a3", qrCode := "SAT25SD724M2", timestamp := 300,
           deviceId := "devB", date := "14nov" }])) ∧
    ("a1" ∈ allScanIds (mergeFullState
        [("SAT25SD724M2",
          { type := PassType.oneUse
            scans := [{ scanId := "a1", qrCode := "SAT25SD724M2", timestamp := 100,
                        deviceId := "devA", date := "14nov" }] })]
        [("SAT25SI3IVAX",
          { type := PassType.infinite
            scans := [{ scanId := "a4", qrCode := "SAT25SI3IVAX", timestamp := 400,
                        deviceId := "devB", date := "14nov" }] })])) :=
  ⟨C4_scanIds_monotone.1 _ _ "a1" (by decide),
   C4_scanIds_monotone.2.1 _ _ "a1" (by decide),
   C4_scanIds_monotone.2.2 _ _ "a1" (by decide)⟩

/-! ## Claim C6: full-state merge and the admitted type -/

/-- C6 counterexample: a snapshot declares the unknown code
"SAT25SD724M2" (no letter I) as `infinite`; `mergeFullState` admits it
with the type re-derived from the code string (`one-use`), not with the
type declared in the snapshot. -/
theorem C6_counterexample :
    typeAt (mergeFullState []
        [("SAT25SD724M2",
          { type := PassType.infinite
            scans := [{ scanId := "s1", qrCode := "SAT25SD724M2", timestamp := 100,
                        deviceId := "devA", date := "14nov" }] })])
      "SAT25SD724M2" ≠ some PassType.infinite := by decide

/-- C6 (amended): `mergeFullState` flattens the snapshot into one delta
list and delegates to `mergeDeltaScans`; a code absent from the local
replica is admitted exactly when the flattened snapshot carries at least
one scan for it, and then with the type derived from the code string
(`'I' ∈ code ? infinite : one-use`), not with the snapshot's declared
type. -/
theorem C6_mergeFullState_flatten_derive :
    (∀ st snap, mergeFullState st snap = mergeDeltaScans st (flattenState snap)) ∧
    (∀ st snap c, lookupAssoc st c = none →
       typeAt (mergeFullState st snap) c =
         if ∃ e ∈ flattenState snap, e.qrCode = c then some (deriveType c)
         else none) := by
  constructor
  · intro st snap; rfl
  · intro st snap c hnone
    rw [mergeFullState, typeAt_mergeDeltaScans]
    have h : typeAt st c = none := by simp [typeAt, hnone]
    simp [h]

/-- C6 witness: the counterexample snapshot evaluated through the amended
statement — the unknown code is admitted with the derived type. -/
theorem C6_witness :
    typeAt (mergeFullState []
        [("SAT25SD724M2",
          { type := PassType.infinite
            scans := [{ scanId := "s1", qrCode := "SAT25SD724M2", timestamp := 100,
                        deviceId := "devA", date := "14nov" }] })])
      "SAT25SD724M2" =
      if ∃ e ∈ flattenState
          [("SAT25SD724M2",
            { type := PassType.infinite
              scans := [{ scanId := "s1", qrCode := "SAT25SD724M2", timestamp := 100,
                          deviceId := "devA", date := "14nov" }] })],
          e.qrCode = "SAT25SD724M2" then some (deriveType "SAT25SD724M2")
      else none :=
  C6_mergeFullState_flatten_derive.2 _ _ _ rfl

/-! ## Claim C10: the fallback type derivation -/

/-- C10: wherever a code's type is not found in the stored pass-type data,
the source derives it as `infinite` exactly when the code string contains
the character I — in `initializePassTypes` (which derives for every
hardcoded code), in the local append `addScanEvent`, in the merge loop of
`mergeDeltaScans` (`mergeOne`), and in `Storage.loadState`; in particular
the code "SAT25SI3IVAX", listed under the one-use passes, is classified as
`infinite`. -/
theorem C10_type_derivation :
    (∀ c, deriveType c = PassType.infinite ↔ includesChar c 'I' = true) ∧
    (∀ c, c ∈ QR_CODES → lookupAssoc setupPassTypes c = some (deriveType c)) ∧
    (∀ st e, lookupAssoc st e.qrCode = none →
       typeAt (addScanEvent st e) e.qrCode = some (deriveType e.qrCode)) ∧
    (∀ st e, lookupAssoc st e.qrCode = none →
       typeAt (mergeOne st e) e.qrCode = some (deriveType e.qrCode)) ∧
    (∀ tbl db codes c, c ∈ codes → lookupAssoc tbl c = none →
       typeAt (loadState tbl db codes) c = some (deriveType c)) ∧
    "SAT25SI3IVAX" ∈ oneUsePassCodes ∧
    deriveType "SAT25SI3IVAX" = PassType.infinite := by
  refine ⟨?_, ?_, ?_, ?_, ?_, by decide, by decide⟩
  · intro c
    by_cases h : includesChar c 'I' <;> simp [deriveType, h]
  · intro c h
    simpa [deriveType] using
      lookupAssoc_map_self
        (fun qrCode => if includesChar qrCode 'I' then PassType.infinite else PassType.oneUse)
        QR_CODES c h
  · intro st e hnone
    rw [addScanEvent_eq]
    simp only [hnone]
    rw [typeAt_setAssoc]
    simp [deriveType]
  · intro st e hnone
    rw [typeAt_mergeOne]
    have h : typeAt st e.qrCode = none := by simp [typeAt, hnone]
    simp [h]
  · intro tbl db codes c hc hnone
    rw [loadState]
    rw [typeAt]
    rw [lookupAssoc_map_self
      (fun qrCode =>
        ({ type := match lookupAssoc tbl qrCode with
                   | some t => t
                   | none => if includesChar qrCode 'I' then PassType.infinite
                             else PassType.oneUse
           scans := getScansForQR db qrCode } : PassState))
      codes c hc]
    simp [hnone, deriveType]

/-- C10 witness: the derivation evaluated at "SAT25SI3IVAX" through
`initializePassTypes`, `addScanEvent`, `mergeOne` and `loadState`. -/
theorem C10_witness :
    (lookupAssoc setupPassTypes "SAT25SI3IVAX" = some (deriveType "SAT25SI3IVAX")) ∧
    (typeAt (addScanEvent []
        { scanId := "z1", qrCode := "SAT25SI3IVAX", timestamp := 100,
          deviceId := "devA", date := "14nov" }) "SAT25SI3IVAX" =
      some (deriveType "SAT25SI3IVAX")) ∧
    (typeAt (mergeOne []
        { scanId := "z2", qrCode := "SAT25SI3IVAX", timestamp := 200,
          deviceId := "devA", date := "14nov" }) "SAT25SI3IVAX" =
      some (deriveType "SAT25SI3IVAX")) ∧
    (typeAt (loadState [] [] ["SAT25SI3IVAX"]) "SAT25SI3IVAX" =
      some (deriveType "SAT25SI3IVAX")) :=
  ⟨C10_type_derivation.2.1 "SAT25SI3IVAX" (by decide),
   C10_type_derivation.2.2.1 _ _ rfl,
   C10_type_derivation.2.2.2.1 _ _ rfl,
   C10_type_derivation.2.2.2.2.1 [] [] ["SAT25SI3IVAX"] _ (by decide) rfl⟩

/-! ## Claim C5: the state hash -/

theorem hash_format_ne_empty (a b c : String) :
    a ++ "-" ++ b ++ "-" ++ c ≠ "empty" := by
  intro h
  have hmem : '-' ∈ (a ++ "-" ++ b ++ "-" ++ c).data := by
    rw [String.data_append]
    refine List.mem_append.mpr (Or.inl ?_)
    rw [String.data_append]
    refine List.mem_append.mpr (Or.inl ?_)
    rw [String.data_append]
    refine List.mem_append.mpr (Or.inl ?_)
    rw [String.data_append]
    exact List.mem_append.mpr (Or.inr (by decide))
  rw [h] at hmem
  exact absurd hmem (by decide)

/-- C5 counterexample: two replicas holding the same *set* of scan ids but
different hashes — the second replica stores the same scan id twice, under
two codes (which `mergeDeltaScans` permits, since its duplicate check is
per code), so the event counts differ. -/
theorem C5_counterexample :
    (allScanIds [("SAT25SD724M2",
        { type := PassType.oneUse
          scans := [{ scanId := "s1", qrCode := "SAT25SD724M2", timestamp := 100,
                      deviceId := "devA", date := "14nov" }] })]).toFinset =
      (allScanIds [("SAT25SD724M2",
          { type := PassType.oneUse
            scans := [{ scanId := "s1", qrCode := "SAT25SD724M2", timestamp := 100,
                        deviceId := "devA", date := "14nov" }] }),
        ("SAT25SI3IVAX",
          { type := PassType.infinite
            scans := [{ scanId := "s1", qrCode := "SAT25SI3IVAX", timestamp := 200,
                        deviceId := "devB", date := "14nov" }] })]).toFinset ∧
    calculateStateHash [("SAT25SD724M2",
        { type := PassType.oneUse
          scans := [{ scanId := "s1", qrCode := "SAT25SD724M2", timestamp := 100,
                      deviceId := "devA", date := "14nov" }] })] ≠
      calculateStateHash [("SAT25SD724M2",
          { type := PassType.oneUse
            scans := [{ scanId := "s1", qrCode := "SAT25SD724M2", timestamp := 100,
                        deviceId := "devA", date := "14nov" }] }),
        ("SAT25SI3IVAX",
          { type := PassType.infinite
            scans := [{ scanId := "s1", qrCode := "SAT25SI3IVAX", timestamp := 200,
                        deviceId := "devB", date := "14nov" }] })] := by
  constructor
  · decide
  · decide

/-- C5 (amended): `calculateStateHash` returns "empty" exactly when the
replica stores no scan events; otherwise it returns
`"{N}-{min[0..8]}-{max[0..8]}"` where N is the total stored event count and
min/max are the first and last scan ids after sorting ascending; and any
two replicas storing the same scan ids *without internal duplication* (one
event per scan id, as the G-Set design intends) hash identically.  (With a
scan id duplicated across two codes the counts diverge — see the
counterexample — so literal set equality is not enough.) -/
theorem C5_calculateStateHash_spec :
    (∀ st : LocalState, calculateStateHash st = "empty" ↔ allScanIds st = []) ∧
    (∀ st : LocalState, allScanIds st ≠ [] →
       calculateStateHash st =
         toString (eventsOf st).length ++ "-" ++
           take8 ((List.insertionSort strLe (allScanIds st)).headD "") ++ "-" ++
           take8 ((List.insertionSort strLe (allScanIds st)).getLastD "")) ∧
    (∀ A B : LocalState, (allScanIds A).Nodup → (allScanIds B).Nodup →
       (∀ id, id ∈ allScanIds A ↔ id ∈ allScanIds B) →
       calculateStateHash A = calculateStateHash B) := by
  have hempty : ∀ st : LocalState,
      (List.insertionSort strLe (allScanIds st)).isEmpty = true ↔ allScanIds st = [] := by
    intro st
    rw [List.isEmpty_iff, ← List.length_eq_zero, List.length_insertionSort,
      List.length_eq_zero]
  refine ⟨?_, ?_, ?_⟩
  · intro st
    by_cases h : (List.insertionSort strLe (allScanIds st)).isEmpty
    · simp only [calculateStateHash, h, if_true]
      simp [(hempty st).mp h]
    · simp only [calculateStateHash, h, if_false]
      constructor
      · intro hcontra
        exact absurd hcontra (hash_format_ne_empty _ _ _)
      · intro hnil
        exact absurd ((hempty st).mpr hnil) h
  · intro st h
    have hne : (List.insertionSort strLe (allScanIds st)).isEmpty = false := by
      rcases Bool.eq_false_or_eq_true (List.insertionSort strLe (allScanIds st)).isEmpty
        with hb | hb
      · exact absurd ((hempty st).mp hb) h
      · exact hb

    have hlen : (List.insertionSort strLe (allScanIds st)).length =
        (eventsOf st).length := by
      rw [List.length_insertionSort, allScanIds_eq, List.length_map]
    simp only [calculateStateHash, hne, Bool.false_eq_true, if_false, hlen]
  · intro A B hA hB hiff
    have hperm : (allScanIds A).Perm (allScanIds B) :=
      (List.perm_ext_iff_of_nodup hA hB).mpr hiff
    have hsorted : List.insertionSort strLe (allScanIds A) =
        List.insertionSort strLe (allScanIds B) :=
      List.eq_of_perm_of_sorted
        ((List.perm_insertionSort _ _).trans
          (hperm.trans (List.perm_insertionSort _ _).symm))
        (List.sorted_insertionSort _ _) (List.sorted_insertionSort _ _)
    simp only [calculateStateHash, hsorted]

/-- C5 witness: the three parts of the hash specification evaluated at
concrete replicas (empty; one event; two structurally different replicas
storing the same two scan ids). -/
theorem C5_witness :
    (calculateStateHash [] = "empty" ↔ allScanIds ([] : LocalState) = []) ∧
    (calculateStateHash [("SAT25SD724M2",
        { type := PassType.oneUse
          scans := [{ scanId := "s1", qrCode := "SAT25SD724M2", timestamp := 100,
                      deviceId := "devA", date := "14nov" }] })] =
      toString (eventsOf [("SAT25SD724M2",
          { type := PassType.oneUse
            scans := [{ scanId := "s1", qrCode := "SAT25SD724M2", timestamp := 100,
                        deviceId := "devA", date := "14nov" }] })]).length ++ "-" ++
        take8 ((List.insertionSort strLe (allScanIds [("SAT25SD724M2",
          { type := PassType.oneUse
            scans := [{ scanId := "s1", qrCode := "SAT25SD724M2", timestamp := 100,
                        deviceId := "devA", date := "14nov" }] })])).headD "") ++ "-" ++
        take8 ((List.insertionSort strLe (allScanIds [("SAT25SD724M2",
          { type := PassType.oneUse
            scans := [{ scanId := "s1", qrCode := "SAT25SD724M2", timestamp := 100,
                        deviceId := "devA", date := "14nov" }] })])).getLastD "")) ∧
    (calculateStateHash [("A",
        { type := PassType.oneUse
          scans := [{ scanId := "h1", qrCode := "A", timestamp := 1,
                      deviceId := "d1", date := "14nov" },
                    { scanId := "h2", qrCode := "A", timestamp := 2,
                      deviceId := "d1", date := "14nov" }] })] =
      calculateStateHash [("B",
        { type := PassType.oneUse
          scans := [{ scanId := "h2", qrCode := "B", timestamp := 5,
                      deviceId := "d2", date := "15nov" }] }),
       ("C",
        { type := PassType.oneUse
          scans := [{ scanId := "h1", qrCode := "C", timestamp := 6,
                      deviceId := "d2", date := "15nov" }] })]) :=
  ⟨C5_calculateStateHash_spec.1 [],
   C5_calculateStateHash_spec.2.1 _ (by decide),
   C5_calculateStateHash_spec.2.2 _ _ (by decide) (by decide)
     (by
       intro id
       rw [show allScanIds [("A",
            { type := PassType.oneUse
              scans := [{ scanId := "h1", qrCode := "A", timestamp := 1,
                          deviceId := "d1", date := "14nov" },
                        { scanId := "h2", qrCode := "A", timestamp := 2,
                          deviceId := "d1", date := "14nov" }] })] = ["h1", "h2"] from rfl,
         show allScanIds [("B",
            { type := PassType.oneUse
              scans := [{ scanId := "h2", qrCode := "B", timestamp := 5,
                          deviceId := "d2", date := "15nov" }] }),
           ("C",
            { type := PassType.oneUse
              scans := [{ scanId := "h1", qrCode := "C", timestamp := 6,
                          deviceId := "d2", date := "15nov" }] })] = ["h2", "h1"] from rfl]
       constructor
       · intro h
         rcases List.mem_cons.mp h with rfl | h
         · simp
         · rcases List.mem_cons.mp h with rfl | h
           · simp
           · cases h
       · intro h
         rcases List.mem_cons.mp h with rfl | h
         · simp
         · rcases List.mem_cons.mp h with rfl | h
           · simp
           · cases h)⟩

/-! ## Claims C7 and C8: duplicate suppression and ACK emission -/

/-- C7: re-delivering a message whose (truthy) `messageId` is already in
the received-id cache changes no state and sends nothing — the duplicate
is dropped before the peer-table update, the merge and the ack reply. -/
theorem C7_duplicate_dropped (s : P2PState) (msg : StateMessage)
    (srcIp : String) (now : Int) (m : String)
    (hm : presentStr msg.messageId = some m)
    (hdup : isMessageReceived s.receivedMessageIds m = true) :
    handleMessage s msg srcIp now = (s, []) := by
  unfold handleMessage
  by_cases hself : msg.deviceId = s.deviceId
  · simp [hself]
  · simp [hself, hm, hdup]

/-- C7 witness: a delta carrying the already-cached message id "m1". -/
theorem C7_witness :
    handleMessage
      { deviceId := "devA", sequenceNumber := 7, localState := [],
        scansDb := [], knownDevices := [], receivedMessageIds := ["m1"],
        pendingAcks := [] }
      { type := MsgType.delta, messageId := some "m1",
        deltas := some [{ scanId := "x1", qrCode := "SAT25SD724M2",
                          timestamp := 100, deviceId := "devB", date := "14nov" }],
        sequenceNum := 3, deviceId := "devB", timestamp := 100 }
      "192.168.1.7" 200 =
      ({ deviceId := "devA", sequenceNumber := 7, localState := [],
         scansDb := [], knownDevices := [], receivedMessageIds := ["m1"],
         pendingAcks := [] }, []) :=
  C7_duplicate_dropped _ _ _ _ "m1" rfl rfl

/-- C8: a delta delivered for the first time from another device, carrying
a (truthy) `messageId` and a non-empty source address, makes the handler
send exactly one `ack`, unicast to the datagram's source address, carrying
`ackMessageId` equal to the delta's `messageId`. -/
theorem C8_first_delta_acked (s : P2PState) (msg : StateMessage)
    (srcIp : String) (now : Int) (m : String)
    (htype : msg.type = MsgType.delta)
    (hself : msg.deviceId ≠ s.deviceId)
    (hm : presentStr msg.messageId = some m)
    (hnew : isMessageReceived s.receivedMessageIds m = false)
    (hip : srcIp ≠ "") :
    ∃ seq : Int,
      (handleMessage s msg srcIp now).2.filter
          (fun o => o.msg.type = MsgType.ack) =
        [{ dest := Dest.unicast srcIp
           msg := { type := MsgType.ack, ackMessageId := some m,
                    sequenceNum := seq, deviceId := s.deviceId,
                    timestamp := now } }] := by
  unfold handleMessage
  by_cases hpeer : (lookupAssoc s.knownDevices msg.deviceId).isNone
  · refine ⟨s.sequenceNumber + 2, ?_⟩
    simp [hself, hm, hnew, htype, hpeer, hip, requestFullStateFromPeers, sendAck,
      mergeAndPersist, List.filter]
    cases msg.deltas <;> simp <;> omega
  · refine ⟨s.sequenceNumber + 1, ?_⟩
    simp [hself, hm, hnew, htype, hpeer, hip, requestFullStateFromPeers, sendAck,
      mergeAndPersist, List.filter]
    cases msg.deltas <;> simp

/-- C8 witness: a fresh delta from devB with message id "m2" arriving from
192.168.1.7. -/
theorem C8_witness :
    ∃ seq : Int,
      (handleMessage
          { deviceId := "devA", sequenceNumber := 7, localState := [],
            scansDb := [], knownDevices := [], receivedMessageIds := ["m1"],
            pendingAcks := [] }
          { type := MsgType.delta, messageId := some "m2",
            deltas := some [{ scanId := "x1", qrCode := "SAT25SD724M2",
                              timestamp := 100, deviceId := "devB", date := "14nov" }],
            sequenceNum := 3, deviceId := "devB", timestamp := 100 }
          "192.168.1.7" 200).2.filter (fun o => o.msg.type = MsgType.ack) =
        [{ dest := Dest.unicast "192.168.1.7"
           msg := { type := MsgType.ack, ackMessageId := some "m2",
                    sequenceNum := seq, deviceId := "devA", timestamp := 200 } }] :=
  C8_first_delta_acked _ _ _ _ "m2" rfl (by decide) rfl rfl (by decide)

/-! ## Claim C9: concurrent submit_scan calls -/

/-- C9 counterexample: two overlapping `handleScannedQRCode` calls for the
same one-use code on the same device, both validating before either
appends (schedule A-validate, B-validate, A-append, B-append, which the
unlocked `await` points permit): both return allow. -/
theorem C9_counterexample :
    allowedOf (runTwo
        (fun c => if c = "SAT25SWRG0M5" then some PassType.oneUse else none)
        [false, true, false, true] []
        { code := "SAT25SWRG0M5", day := "14nov", nowMs := 1000,
          newScanId := "c1", devId := "devA" }
        { code := "SAT25SWRG0M5", day := "14nov", nowMs := 1500,
          newScanId := "c2", devId := "devA" }
        SubmitPhase.ready SubmitPhase.ready).2.1 = true ∧
    allowedOf (runTwo
        (fun c => if c = "SAT25SWRG0M5" then some PassType.oneUse else none)
        [false, true, false, true] []
        { code := "SAT25SWRG0M5", day := "14nov", nowMs := 1000,
          newScanId := "c1", devId := "devA" }
        { code := "SAT25SWRG0M5", day := "14nov", nowMs := 1500,
          newScanId := "c2", devId := "devA" }
        SubmitPhase.ready SubmitPhase.ready).2.2 = true := by
  constructor
  · decide
  · decide

theorem submitScan_fst (config : String → Option PassType) (db : List ScanEvent)
    (code day : String) (nowMs : Int) (newScanId devId : String) :
    (submitScan config db code day nowMs newScanId devId).1 =
      validateScan (config code) (getScansForQROnDate db code day) nowMs := by
  unfold submitScan
  by_cases h : (validateScan (config code) (getScansForQROnDate db code day) nowMs).allowed <;>
    simp [h]

theorem mem_saveScanEvent_self (db : List ScanEvent) (e : ScanEvent) :
    e ∈ saveScanEvent db e := by
  unfold saveScanEvent
  by_cases h : db.any (fun x => x.scanId = e.scanId)
  · rcases List.any_eq_true.mp h with ⟨x, hx, hid⟩
    simp only [h, if_true]
    exact List.mem_map.mpr ⟨x, hx, by simp [of_decide_eq_true hid]⟩
  · simp [h]

theorem submitScan_snd_allowed (config : String → Option PassType)
    (db : List ScanEvent) (code day : String) (nowMs : Int)
    (newScanId devId : String)
    (h : (submitScan config db code day nowMs newScanId devId).1.allowed = true) :
    (submitScan config db code day nowMs newScanId devId).2 =
      saveScanEvent db
        { scanId := newScanId, qrCode := code,
          timestamp := nowMs, deviceId := devId, date := day } := by
  unfold submitScan at h ⊢
  by_cases hv : (validateScan (config code) (getScansForQROnDate db code day) nowMs).allowed
  · simp [hv]
  · simp [hv] at h

/-- C9 (amended): the source has no lock, so overlapping calls can both
allow (see the counterexample); what does hold is at-most-once for
*sequential* calls: once a `submitScan` of a one-use code has been allowed
and its append has completed, any later `submitScan` of that code on the
same day against the resulting store is denied. -/
theorem C9_sequential_at_most_once (config : String → Option PassType)
    (db : List ScanEvent) (code day : String) (now₁ now₂ : Int)
    (id₁ dev₁ id₂ dev₂ : String)
    (hty : config code = some PassType.oneUse)
    (hallow : (submitScan config db code day now₁ id₁ dev₁).1.allowed = true) :
    (submitScan config (submitScan config db code day now₁ id₁ dev₁).2
        code day now₂ id₂ dev₂).1.allowed = false := by
  rw [submitScan_snd_allowed config db code day now₁ id₁ dev₁ hallow]
  rw [submitScan_fst, hty]
  have hmem :
      ({ scanId := id₁, qrCode := code, timestamp := now₁,
         deviceId := dev₁, date := day } : ScanEvent) ∈
      getScansForQROnDate
        (saveScanEvent db
          { scanId := id₁, qrCode := code, timestamp := now₁,
            deviceId := dev₁, date := day }) code day := by
    unfold getScansForQROnDate
    rw [List.mem_insertionSort]
    refine List.mem_filter.mpr ⟨mem_saveScanEvent_self _ _, by simp⟩
  rw [validateScan_oneUse_used _ _ (List.ne_nil_of_mem hmem)]

/-- C9 witness: a first allowed submit of a one-use code followed by a
sequential second submit, which is denied. -/
theorem C9_witness :
    (submitScan (fun c => if c = "SAT25SWRG0M5" then some PassType.oneUse else none)
        (submitScan (fun c => if c = "SAT25SWRG0M5" then some PassType.oneUse else none)
          [] "SAT25SWRG0M5" "14nov" 1000 "c1" "devA").2
        "SAT25SWRG0M5" "14nov" 1500 "c2" "devA").1.allowed = false :=
  C9_sequential_at_most_once _ [] "SAT25SWRG0M5" "14nov" 1000 1500 "c1" "devA"
    "c2" "devA" (by decide) (by decide)
